import Mathlib

/-!
Verification development for the `aws_iam_visualizer` repository
(`src/iam_visualizer.py`).

The Python program is shallowly embedded here:

* Python dicts become association lists `List (String × Val)` whose entry
  order is insertion order (Python 3.7+ dict semantics); dict assignment
  `d[k] = v` is `dictInsert` (update in place keeps the position of an
  existing key, otherwise append at the end).
* The boto3 IAM client is a record `IamClient` of the responses the program
  reads; paginated listings are flattened to the full list, exactly as the
  Python loops over every page.
* `sys.exit(1)` after a printed "does not exist" diagnostic is the `.error`
  branch of `Except String`, carrying the printed message.
* `write_dot` is factored through `dotLines`, a list of structured DOT
  statements, and `renderDot`, which produces the exact text the Python
  `f.write` calls emit (one list element per written line).
* `yaml.dump(..., sort_keys=False)` is third-party library code, not part of
  this repository; `yamlEntry` models its documented behaviour on the data
  shapes this program produces: block style, keys in insertion order, no
  sorting.  Output lines are (indent-level, text) pairs.
-/

set_option autoImplicit false
set_option linter.unusedVariables false
set_option linter.unnecessarySeqFocus false

namespace IamViz

/-- A Python value as used by `iam_visualizer.py`: strings, numbers,
lists and (insertion-ordered) dicts. -/
inductive Val where
  | str : String → Val
  | nat : Nat → Val
  | list : List Val → Val
  | map : List (String × Val) → Val

/-- A Python dict with string keys, in insertion order. -/
abbrev Dict := List (String × Val)

/-- Entries of a dict value (`.items()`); non-dicts have none. -/
def Val.entries : Val → Dict
  | .map m => m
  | _ => []

/-- The underlying string of a scalar value. -/
def Val.asStr : Val → String
  | .str s => s
  | _ => ""

/-- The strings of a list value. -/
def Val.strItems : Val → List String
  | .list l => l.map Val.asStr
  | _ => []

/-- First value stored under key `k`, Python `d[k]` / `k in d`. -/
def dictGet (d : Dict) (k : String) : Option Val :=
  (d.find? (fun e => e.1 == k)).map Prod.snd

/-- Python `d.get(k, dflt)`. -/
def dictGetD (d : Dict) (k : String) (dflt : Val) : Val :=
  (dictGet d k).getD dflt

/-- Python dict assignment `d[k] = v`: overwrite in place if the key exists
(keeping its position), otherwise append. -/
def dictInsert (d : Dict) (k : String) (v : Val) : Dict :=
  if d.any (fun e => e.1 == k) then
    d.map (fun e => if e.1 == k then (k, v) else e)
  else
    d ++ [(k, v)]

/-- Python `v.get(k, dflt)` where `v` is a dict value. -/
def Val.getD (v : Val) (k : String) (dflt : Val) : Val :=
  dictGetD v.entries k dflt

/-- One managed policy as reported by `list_policies` (the fields the
program reads). -/
structure Policy where
  policyName : String
  arn : String
  attachmentCount : Nat
  defaultVersionId : String
deriving DecidableEq

/-- The IAM API surface `iam_visualizer.py` reads, with paginated listings
flattened.  `users` and `roles` double as the existence oracle for
`get_user` / `get_role` (`NoSuchEntityException` exactly when the name is
not listed). -/
structure IamClient where
  users : List String
  roles : List String
  policies : List Policy
  attachedUserPolicies : String → List String
  userInlinePolicies : String → List String
  userGroups : String → List String
  attachedGroupPolicies : String → List String
  groupInlinePolicies : String → List String
  attachedRolePolicies : String → List String
  roleInlinePolicies : String → List String

/-- `get_group_data` of `iam_visualizer.py`. -/
def get_group_data (c : IamClient) (group_name : String) : Val :=
  Val.map
    [("AttachedPolicies", Val.list ((c.attachedGroupPolicies group_name).map Val.str)),
     ("InlinePolicies", Val.list ((c.groupInlinePolicies group_name).map Val.str))]

/-- `get_user_data` of `iam_visualizer.py`.  The `Groups` dict is filled by
the `for group in groups` loop. -/
def get_user_data (c : IamClient) (user_name : String) : Val :=
  Val.map
    [("AttachedPolicies", Val.list ((c.attachedUserPolicies user_name).map Val.str)),
     ("InlinePolicies", Val.list ((c.userInlinePolicies user_name).map Val.str)),
     ("Groups", Val.map ((c.userGroups user_name).foldl
        (fun acc g => dictInsert acc g (get_group_data c g)) []))]

/-- `get_role_data` of `iam_visualizer.py`. -/
def get_role_data (c : IamClient) (role_name : String) : Val :=
  Val.map
    [("AttachedPolicies", Val.list ((c.attachedRolePolicies role_name).map Val.str)),
     ("InlinePolicies", Val.list ((c.roleInlinePolicies role_name).map Val.str))]

/-- The dict built for one policy in the `list_policies` loops. -/
def policyRec (p : Policy) : Val :=
  Val.map
    [("Arn", Val.str p.arn),
     ("AttachmentCount", Val.nat p.attachmentCount),
     ("DefaultVersionId", Val.str p.defaultVersionId)]

/-- `'users' in entities or 'all' in entities` (and likewise for the other
kinds). -/
def wants (entities : List String) (kind : String) : Bool :=
  entities.contains kind || entities.contains "all"

/-- Diagnostic printed before `sys.exit(1)` when a named user is missing. -/
def userMsg (n : String) : String :=
  "User \x27" ++ n ++ "\x27 does not exist."

/-- Diagnostic printed before `sys.exit(1)` when a named role is missing. -/
def roleMsg (n : String) : String :=
  "Role \x27" ++ n ++ "\x27 does not exist."

/-- Diagnostic printed before `sys.exit(1)` when a named policy is missing. -/
def policyMsg (n : String) : String :=
  "Policy \x27" ++ n ++ "\x27 does not exist."

/-- The `iam_data['Users']` block of `get_iam_data`: a single looked-up user
when a name is given (exiting when it does not exist), otherwise every
listed user. -/
def usersSection (c : IamClient) : Option String → Except String Dict
  | some n =>
      if n ∈ c.users then Except.ok [(n, get_user_data c n)]
      else Except.error (userMsg n)
  | none =>
      Except.ok (c.users.foldl (fun acc u => dictInsert acc u (get_user_data c u)) [])

/-- The `iam_data['Roles']` block of `get_iam_data`. -/
def rolesSection (c : IamClient) : Option String → Except String Dict
  | some n =>
      if n ∈ c.roles then Except.ok [(n, get_role_data c n)]
      else Except.error (roleMsg n)
  | none =>
      Except.ok (c.roles.foldl (fun acc r => dictInsert acc r (get_role_data c r)) [])

/-- The named-policy scan of `get_iam_data`: every page is walked to the
end, each matching policy is stored under the name (later matches
overwrite), and the flag records whether any match was seen. -/
def policyScan (ps : List Policy) (n : String) : Dict × Bool :=
  ps.foldl
    (fun acc p =>
      if p.policyName == n then (dictInsert acc.1 n (policyRec p), true) else acc)
    ([], false)

/-- The `iam_data['Policies']` block of `get_iam_data`. -/
def policiesSection (c : IamClient) : Option String → Except String Dict
  | some n =>
      let r := policyScan c.policies n
      if r.2 then Except.ok r.1 else Except.error (policyMsg n)
  | none =>
      Except.ok (c.policies.foldl
        (fun acc p => dictInsert acc p.policyName (policyRec p)) [])

/-- `get_iam_data` of `iam_visualizer.py`.  The three kind blocks run in
order; the first missing named entity prints its diagnostic and exits
(`Except.error`), so later blocks never run.  Since each block assigns a
distinct fresh top-level key, the successive `iam_data[...] = ...`
assignments amount to appending the three parts. -/
def get_iam_data (c : IamClient) (entities : List String) (name : Option String) :
    Except String Dict :=
  match (if wants entities "users"
         then (usersSection c name).map (fun s => [("Users", Val.map s)])
         else Except.ok []) with
  | Except.error e => Except.error e
  | Except.ok pU =>
    match (if wants entities "roles"
           then (rolesSection c name).map (fun s => [("Roles", Val.map s)])
           else Except.ok []) with
    | Except.error e => Except.error e
    | Except.ok pR =>
      match (if wants entities "policies"
             then (policiesSection c name).map (fun s => [("Policies", Val.map s)])
             else Except.ok []) with
      | Except.error e => Except.error e
      | Except.ok pP => Except.ok (pU ++ pR ++ pP)

/-- `user_data.get('AttachedPolicies', [])` as the list of names. -/
def attachedOf (v : Val) : List String :=
  (v.getD "AttachedPolicies" (Val.list [])).strItems

/-- `user_data.get('InlinePolicies', [])` as the list of names. -/
def inlineOf (v : Val) : List String :=
  (v.getD "InlinePolicies" (Val.list [])).strItems

/-- `user_data.get('Groups', {}).items()`. -/
def groupsOf (v : Val) : Dict :=
  (v.getD "Groups" (Val.map [])).entries

/-- `iam_data.get('Users', {}).items()`. -/
def usersOf (d : Dict) : Dict :=
  (dictGetD d "Users" (Val.map [])).entries

/-- `iam_data.get('Roles', {}).items()`. -/
def rolesOf (d : Dict) : Dict :=
  (dictGetD d "Roles" (Val.map [])).entries

/-- `if 'Policies' in iam_data: iam_data['Policies'].items()`. -/
def policiesOf (d : Dict) : Dict :=
  match dictGet d "Policies" with
  | some v => v.entries
  | none => []

/-- Top-level `Users` key list of a collection. -/
def userKeys (d : Dict) : List String := (usersOf d).map Prod.fst

/-- Top-level `Roles` key list of a collection. -/
def roleKeys (d : Dict) : List String := (rolesOf d).map Prod.fst

/-- Top-level `Policies` key list of a collection. -/
def policyKeys (d : Dict) : List String := (policiesOf d).map Prod.fst

/-- All group names reachable through any user of the collection. -/
def allGroupKeys (d : Dict) : List String :=
  (usersOf d).flatMap (fun e => (groupsOf e.2).map Prod.fst)

/-- One line written by `write_dot`, in structured form. -/
inductive DotLine where
  | header1 : DotLine
  | header2 : DotLine
  | header3 : DotLine
  | footer : DotLine
  | userNode : String → DotLine
  | roleNode : String → DotLine
  | policyNode : String → DotLine
  | edge : String → String → String → DotLine
deriving DecidableEq

/-- The exact text each `f.write` call of `write_dot` produces (without the
trailing newline). -/
def renderDot : DotLine → String
  | .header1 => "digraph IAM \x7b"
  | .header2 => "  rankdir=LR;"
  | .header3 => "  node [shape=rectangle, style=filled, fillcolor=white];"
  | .footer => "\x7d"
  | .userNode n => "  \"" ++ n ++ "\" [label=\"User: " ++ n ++ "\"];"
  | .roleNode n => "  \"" ++ n ++ "\" [label=\"Role: " ++ n ++ "\", shape=oval];"
  | .policyNode n => "  \"" ++ n ++ "\" [label=\"Policy: " ++ n ++ "\", shape=note];"
  | .edge a b l => "  \"" ++ a ++ "\" -> \"" ++ b ++ "\" [label=\"" ++ l ++ "\"];"

/-- The lines written for one `(group, group_data)` entry inside a user's
loop: the membership edge, then the group's attached and inline policy
edges. -/
def groupDotLines (user : String) (g : String × Val) : List DotLine :=
  DotLine.edge user g.1 "member of"
    :: ((attachedOf g.2).map (fun p => DotLine.edge g.1 p "has policy")
        ++ (inlineOf g.2).map (fun p => DotLine.edge g.1 p "has inline policy"))

/-- The lines written for one `(user, user_data)` entry of `write_dot`. -/
def userDotLines (user : String) (ud : Val) : List DotLine :=
  DotLine.userNode user
    :: ((attachedOf ud).map (fun p => DotLine.edge user p "has policy")
        ++ (inlineOf ud).map (fun p => DotLine.edge user p "has inline policy")
        ++ (groupsOf ud).flatMap (groupDotLines user))

/-- The lines written for one `(role, role_data)` entry of `write_dot`. -/
def roleDotLines (role : String) (rd : Val) : List DotLine :=
  DotLine.roleNode role
    :: ((attachedOf rd).map (fun p => DotLine.edge role p "has policy")
        ++ (inlineOf rd).map (fun p => DotLine.edge role p "has inline policy"))

/-- All lines of `write_dot`, in order, in structured form. -/
def dotLines (d : Dict) : List DotLine :=
  [DotLine.header1, DotLine.header2, DotLine.header3]
    ++ (usersOf d).flatMap (fun u => userDotLines u.1 u.2)
    ++ (rolesOf d).flatMap (fun r => roleDotLines r.1 r.2)
    ++ (policiesOf d).map (fun p => DotLine.policyNode p.1)
    ++ [DotLine.footer]

/-- `write_dot` of `iam_visualizer.py`: the text lines of the DOT file. -/
def write_dot (d : Dict) : List String :=
  (dotLines d).map renderDot

/-- Modelled from the spec and the PyYAML documentation: one
entry of `yaml.dump(..., sort_keys=False)` block output (the library is not
part of this repository).  Result lines are (indent-level, text) pairs; the
key line comes first and every nested line sits at a deeper level.  The
fuel argument only bounds nesting depth; the collection data of this
program nests at most four levels deep, far below the fuel used. -/
def yamlEntry : Nat → Nat → String → Val → List (Nat × String)
  | 0, lvl, k, _ => [(lvl, k ++ ":")]
  | _ + 1, lvl, k, Val.str s => [(lvl, k ++ ": " ++ s)]
  | _ + 1, lvl, k, Val.nat n => [(lvl, k ++ ": " ++ toString n)]
  | _ + 1, lvl, k, Val.list [] => [(lvl, k ++ ": []")]
  | _ + 1, lvl, k, Val.list items =>
      (lvl, k ++ ":") :: items.map (fun it => (lvl + 1, "- " ++ Val.asStr it))
  | _ + 1, lvl, k, Val.map [] => [(lvl, k ++ ": \x7b\x7d")]
  | fuel + 1, lvl, k, Val.map es =>
      (lvl, k ++ ":") :: es.flatMap (fun e => yamlEntry fuel (lvl + 1) e.1 e.2)

/-- The (indent-level, text) lines of the YAML dump of a collection. -/
def yamlLines (d : Dict) : List (Nat × String) :=
  d.flatMap (fun e => yamlEntry 8 0 e.1 e.2)

/-- Two spaces of indentation per level. -/
def indentStr (n : Nat) : String :=
  String.mk (List.replicate (2 * n) ' ')

/-- `write_yaml` / `yaml.dump(iam_data, sort_keys=False)` as text lines; an
empty dict dumps as `\x7b\x7d`. -/
def write_yaml (d : Dict) : List String :=
  if d.isEmpty then ["\x7b\x7d"]
  else (yamlLines d).map (fun p => indentStr p.1 ++ p.2)

/-- The first output line a top-level entry contributes to the YAML dump. -/
def topHead (k : String) (v : Val) : String :=
  match v with
  | Val.str s => k ++ ": " ++ s
  | Val.nat n => k ++ ": " ++ toString n
  | Val.list [] => k ++ ": []"
  | Val.list _ => k ++ ":"
  | Val.map [] => k ++ ": \x7b\x7d"
  | Val.map _ => k ++ ":"

/-- The name declared by a node line, if any. -/
def nodeName : DotLine → Option String
  | .userNode n => some n
  | .roleNode n => some n
  | .policyNode n => some n
  | _ => none

/-- The group records stored for group `g` across all users of the
collection, one per (user, group) membership. -/
def membershipRecords (d : Dict) (g : String) : List Val :=
  (usersOf d).flatMap
    (fun e => ((groupsOf e.2).filter (fun gr => gr.1 == g)).map Prod.snd)

/-- Environment of the renderer: whether the external `dot` binary exists
and, when it runs, its exit code. -/
structure GraphEnv where
  dotInstalled : Bool
  dotExitCode : Nat

/-- Outcome of `generate_graph`: process exit code (0 means the program
continues normally), the diagnostic or progress message printed, and
whether the image file was produced. -/
structure GraphResult where
  exitCode : Nat
  message : String
  imageCreated : Bool

/-- The diagnostic printed when the external `dot` binary is absent. -/
def dotMissingMsg : String :=
  "Graphviz \x27dot\x27 command not found. Please install Graphviz to generate graphs."

/-- Modelled from the spec: `str(subprocess.CalledProcessError)` for the
fixed `dot` invocation (the subprocess library is not part of this
repository); it surfaces the non-zero exit status. -/
def calledProcessErrorStr (code : Nat) : String :=
  "Command \x27dot\x27 returned non-zero exit status " ++ toString code ++ "."

/-- `generate_graph` of `iam_visualizer.py`: a single `dot` invocation, no
retry, no alternate renderer.  `FileNotFoundError` (binary absent) and
`CalledProcessError` (non-zero exit) each print their message and
`sys.exit(1)`. -/
def generate_graph (env : GraphEnv) (dot_file output_image : String) : GraphResult :=
  if env.dotInstalled then
    if env.dotExitCode == 0 then
      ⟨0, "Graph image generated: " ++ output_image, true⟩
    else
      ⟨1, "Error generating graph: " ++ calledProcessErrorStr env.dotExitCode, false⟩
  else
    ⟨1, dotMissingMsg, false⟩

/-- Modelled from the spec: Python's `str.split(',')` (a builtin, not
repository code) over the character list, splitting at every comma. -/
def splitCommaChars : List Char → List Char → List String
  | [], acc => [String.mk acc.reverse]
  | c :: cs, acc =>
      if c = ',' then String.mk acc.reverse :: splitCommaChars cs []
      else splitCommaChars cs (c :: acc)

/-- Modelled from the spec: Python's `str.strip()` (a builtin, not
repository code): drop leading and trailing whitespace. -/
def stripChars (l : List Char) : List Char :=
  ((l.dropWhile Char.isWhitespace).reverse.dropWhile Char.isWhitespace).reverse

/-- `[entity.strip().lower() for entity in args.entities.split(',')]`
(`lower` is ASCII lowering, all the program's kind tokens are ASCII). -/
def parseEntities (s : String) : List String :=
  (splitCommaChars s.data []).map
    (fun t => String.mk ((stripChars t.data).map Char.toLower))

/-- The command-line arguments of `main`. -/
structure Args where
  generateGraph : Bool
  yamlFile : String
  dotFile : String
  graphImage : String
  entities : String
  name : Option String
  printYaml : Bool

/-- Observable outcome of one run of `main`: the process exit code and the
contents written to the YAML file, the console, and the DOT file (`none`
when that output was never written), plus whether an image was produced. -/
structure RunResult where
  exitCode : Nat
  yamlFileOut : Option (List String)
  yamlPrinted : Option (List String)
  dotFileOut : Option (List String)
  imageCreated : Bool

/-- `main` of `iam_visualizer.py`.  A `sys.exit(1)` raised inside
`get_iam_data` terminates the process before any export step, so no YAML
and no DOT output exists in that case. -/
def main_run (c : IamClient) (env : GraphEnv) (args : Args) : RunResult :=
  match get_iam_data c (parseEntities args.entities) args.name with
  | Except.error _ => ⟨1, none, none, none, false⟩
  | Except.ok d =>
      let y := write_yaml d
      let yFile : Option (List String) := if args.printYaml then none else some y
      let yPrint : Option (List String) := if args.printYaml then some y else none
      if args.generateGraph then
        let g := generate_graph env args.dotFile args.graphImage
        ⟨g.exitCode, yFile, yPrint, some (write_dot d), g.imageCreated⟩
      else
        ⟨0, yFile, yPrint, none, false⟩

/-- `true` exactly on `Except.ok`. -/
def exceptOk {α : Type} (e : Except String α) : Bool :=
  match e with
  | Except.ok _ => true
  | Except.error _ => false

/-- The spec's example collection: one user `alice` with one attached
policy `AdminPolicy`, no inline policies, no groups. -/
def aliceData : Dict :=
  [("Users", Val.map
     [("alice", Val.map
        [("AttachedPolicies", Val.list [Val.str "AdminPolicy"]),
         ("InlinePolicies", Val.list []),
         ("Groups", Val.map [])])])]

/-- The constantly-empty listing, used by the mock APIs below. -/
def noNames : String → List String :=
  fun _ => []

/-- A mock API with two users that are both members of the group `devs`,
which has the single attached policy `Pol`. -/
def demoClient : IamClient :=
  ⟨["u1", "u2"], [], [],
   noNames, noNames, fun _ => ["devs"],
   fun g => if g == "devs" then ["Pol"] else [], noNames,
   noNames, noNames⟩

/-- The record the collector builds for the group `devs` of `demoClient`. -/
def devsRec : Val :=
  Val.map [("AttachedPolicies", Val.list [Val.str "Pol"]),
           ("InlinePolicies", Val.list [])]

/-- The record the collector builds for each user of `demoClient`. -/
def demoUserRec : Val :=
  Val.map [("AttachedPolicies", Val.list []),
           ("InlinePolicies", Val.list []),
           ("Groups", Val.map [("devs", devsRec)])]

/-- The collection `demoClient` yields for `--entities users`: the group
`devs` is reachable from both users. -/
def dupDemo : Dict :=
  [("Users", Val.map [("u1", demoUserRec), ("u2", demoUserRec)])]

/-- The key list of a record value, in insertion order. -/
def recKeys (v : Val) : List String :=
  v.entries.map Prod.fst

/-- A mock API with no entities at all. -/
def emptyClient : IamClient :=
  ⟨[], [], [], noNames, noNames, noNames, noNames, noNames, noNames, noNames⟩

/-- A mock API in which the name `x` exists as a user, a role and a
policy. -/
def fullClient : IamClient :=
  ⟨["x"], ["x"], [⟨"x", "arn:x", 1, "v1"⟩],
   noNames, noNames, noNames, noNames, noNames, noNames, noNames⟩

/-- Arguments requesting the missing user `ghost` with default outputs. -/
def missArgs : Args :=
  ⟨false, "iam_data.yaml", "iam_graph.dot", "iam_graph.png", "users", some "ghost", false⟩

/-- Arguments with a misspelled entity kind and no graph generation. -/
def typoArgs : Args :=
  ⟨false, "iam_data.yaml", "iam_graph.dot", "iam_graph.png", "userz", some "ghost", false⟩

end IamViz

namespace IamViz

/-! ### Counting lemmas for the DOT line structure -/

theorem count_flatMap_zero {β : Type} (L : List β) (f : β → List DotLine) (x : DotLine)
    (h : ∀ e ∈ L, (f e).count x = 0) : (L.flatMap f).count x = 0 := by
  induction L with
  | nil => simp
  | cons e L ih =>
      rw [List.flatMap_cons, List.count_append, h e (by simp), ih (fun a ha => h a (by simp [ha]))]

theorem count_edge_map (s lbl a b l : String) (xs : List String) :
    (xs.map (fun p => DotLine.edge s p lbl)).count (DotLine.edge a b l)
      = if s = a ∧ lbl = l then xs.count b else 0 := by
  induction xs with
  | nil => simp
  | cons x xs ih =>
      simp only [List.map_cons, List.count_cons, ih, beq_iff_eq, DotLine.edge.injEq]
      by_cases hsa : s = a <;> by_cases hll : lbl = l <;>
        by_cases hxb : x = b <;> simp [hsa, hll, hxb, List.count_cons]

theorem count_map_edge_nonedge (s lbl : String) (xs : List String) (x : DotLine)
    (h : ∀ a b l, x ≠ DotLine.edge a b l) :
    (xs.map (fun p => DotLine.edge s p lbl)).count x = 0 := by
  rw [List.count_eq_zero]
  intro hx
  rcases List.mem_map.mp hx with ⟨p, _, hp⟩
  exact h s p lbl hp.symm

theorem count_userNode_map_policyNode (ps : Dict) (n : String) :
    ((ps.map (fun p => DotLine.policyNode p.1)).count (DotLine.userNode n)) = 0 := by
  rw [List.count_eq_zero]
  intro hx
  rcases List.mem_map.mp hx with ⟨p, _, hp⟩
  exact DotLine.noConfusion hp

theorem count_roleNode_map_policyNode (ps : Dict) (n : String) :
    ((ps.map (fun p => DotLine.policyNode p.1)).count (DotLine.roleNode n)) = 0 := by
  rw [List.count_eq_zero]
  intro hx
  rcases List.mem_map.mp hx with ⟨p, _, hp⟩
  exact DotLine.noConfusion hp

theorem count_edge_map_policyNode (ps : Dict) (a b l : String) :
    ((ps.map (fun p => DotLine.policyNode p.1)).count (DotLine.edge a b l)) = 0 := by
  rw [List.count_eq_zero]
  intro hx
  rcases List.mem_map.mp hx with ⟨p, _, hp⟩
  exact DotLine.noConfusion hp

theorem count_policyNode_map (ps : Dict) (n : String) :
    ((ps.map (fun p => DotLine.policyNode p.1)).count (DotLine.policyNode n))
      = (ps.map Prod.fst).count n := by
  induction ps with
  | nil => simp
  | cons p ps ih =>
      simp only [List.map_cons, List.count_cons, ih, beq_iff_eq, DotLine.policyNode.injEq]

theorem count_memberOf_groupDotLines (u a b : String) (g : String × Val) :
    (groupDotLines u g).count (DotLine.edge a b "member of")
      = if u = a ∧ g.1 = b then 1 else 0 := by
  unfold groupDotLines
  rw [List.count_cons, List.count_append, count_edge_map, count_edge_map]
  by_cases hu : u = a <;> by_cases hg : g.1 = b <;>
    simp [hu, hg, beq_iff_eq, DotLine.edge.injEq]

theorem count_hp_groupDotLines (u a b : String) (g : String × Val) :
    (groupDotLines u g).count (DotLine.edge a b "has policy")
      = if g.1 = a then (attachedOf g.2).count b else 0 := by
  unfold groupDotLines
  rw [List.count_cons, List.count_append, count_edge_map, count_edge_map]
  by_cases hg : g.1 = a <;> simp [hg, beq_iff_eq, DotLine.edge.injEq]

theorem count_hip_groupDotLines (u a b : String) (g : String × Val) :
    (groupDotLines u g).count (DotLine.edge a b "has inline policy")
      = if g.1 = a then (inlineOf g.2).count b else 0 := by
  unfold groupDotLines
  rw [List.count_cons, List.count_append, count_edge_map, count_edge_map]
  by_cases hg : g.1 = a <;> simp [hg, beq_iff_eq, DotLine.edge.injEq]

theorem count_nonedge_groupDotLines (u : String) (g : String × Val) (x : DotLine)
    (h : ∀ a b l, x ≠ DotLine.edge a b l) : (groupDotLines u g).count x = 0 := by
  unfold groupDotLines
  rw [List.count_cons, List.count_append, count_map_edge_nonedge _ _ _ _ h,
    count_map_edge_nonedge _ _ _ _ h]
  have hne : (DotLine.edge u g.1 "member of" == x) = false := by
    simp only [beq_eq_false_iff_ne, ne_eq]
    exact fun hx => (h u g.1 "member of") hx.symm
  simp [hne]

theorem count_memberOf_flatMap_groups (u a b : String) (gs : Dict) :
    ((gs.flatMap (groupDotLines u)).count (DotLine.edge a b "member of"))
      = if u = a then (gs.map Prod.fst).count b else 0 := by
  induction gs with
  | nil => simp
  | cons g gs ih =>
      rw [List.flatMap_cons, List.count_append, ih, count_memberOf_groupDotLines]
      by_cases hu : u = a <;> by_cases hg : g.1 = b <;>
        simp [hu, hg, List.count_cons, beq_iff_eq]
      omega

theorem count_hp_flatMap_groups (u a b : String) (gs : Dict) :
    ((gs.flatMap (groupDotLines u)).count (DotLine.edge a b "has policy"))
      = ((((gs.filter (fun x => x.1 == a)).map Prod.snd).flatMap attachedOf).count b) := by
  induction gs with
  | nil => simp
  | cons g gs ih =>
      rw [List.flatMap_cons, List.count_append, ih, count_hp_groupDotLines, List.filter_cons]
      by_cases hg : g.1 = a <;> simp [hg, List.count_append]

theorem count_hip_flatMap_groups (u a b : String) (gs : Dict) :
    ((gs.flatMap (groupDotLines u)).count (DotLine.edge a b "has inline policy"))
      = ((((gs.filter (fun x => x.1 == a)).map Prod.snd).flatMap inlineOf).count b) := by
  induction gs with
  | nil => simp
  | cons g gs ih =>
      rw [List.flatMap_cons, List.count_append, ih, count_hip_groupDotLines, List.filter_cons]
      by_cases hg : g.1 = a <;> simp [hg, List.count_append]

theorem count_nonedge_flatMap_groups (u : String) (gs : Dict) (x : DotLine)
    (h : ∀ a b l, x ≠ DotLine.edge a b l) : (gs.flatMap (groupDotLines u)).count x = 0 :=
  count_flatMap_zero _ _ _ (fun g _ => count_nonedge_groupDotLines u g x h)

theorem userNode_ne_edge (n a b l : String) : DotLine.userNode n ≠ DotLine.edge a b l :=
  fun h => DotLine.noConfusion h

theorem roleNode_ne_edge (n a b l : String) : DotLine.roleNode n ≠ DotLine.edge a b l :=
  fun h => DotLine.noConfusion h

theorem policyNode_ne_edge (n a b l : String) : DotLine.policyNode n ≠ DotLine.edge a b l :=
  fun h => DotLine.noConfusion h

theorem count_userNode_userDotLines (u n : String) (ud : Val) :
    (userDotLines u ud).count (DotLine.userNode n) = if u = n then 1 else 0 := by
  unfold userDotLines
  rw [List.count_cons, List.count_append, List.count_append,
    count_map_edge_nonedge _ _ _ _ (userNode_ne_edge n),
    count_map_edge_nonedge _ _ _ _ (userNode_ne_edge n),
    count_nonedge_flatMap_groups _ _ _ (userNode_ne_edge n)]
  by_cases h : u = n <;> simp [h, beq_iff_eq]

theorem count_roleNode_userDotLines (u n : String) (ud : Val) :
    (userDotLines u ud).count (DotLine.roleNode n) = 0 := by
  unfold userDotLines
  rw [List.count_cons, List.count_append, List.count_append,
    count_map_edge_nonedge _ _ _ _ (roleNode_ne_edge n),
    count_map_edge_nonedge _ _ _ _ (roleNode_ne_edge n),
    count_nonedge_flatMap_groups _ _ _ (roleNode_ne_edge n)]
  simp

theorem count_policyNode_userDotLines (u n : String) (ud : Val) :
    (userDotLines u ud).count (DotLine.policyNode n) = 0 := by
  unfold userDotLines
  rw [List.count_cons, List.count_append, List.count_append,
    count_map_edge_nonedge _ _ _ _ (policyNode_ne_edge n),
    count_map_edge_nonedge _ _ _ _ (policyNode_ne_edge n),
    count_nonedge_flatMap_groups _ _ _ (policyNode_ne_edge n)]
  simp

theorem count_memberOf_userDotLines (u a b : String) (ud : Val) :
    (userDotLines u ud).count (DotLine.edge a b "member of")
      = if u = a then ((groupsOf ud).map Prod.fst).count b else 0 := by
  unfold userDotLines
  rw [List.count_cons, List.count_append, List.count_append, count_edge_map, count_edge_map,
    count_memberOf_flatMap_groups]
  simp

theorem count_hp_userDotLines (u a b : String) (ud : Val) :
    (userDotLines u ud).count (DotLine.edge a b "has policy")
      = (if u = a then (attachedOf ud).count b else 0)
        + ((((groupsOf ud).filter (fun x => x.1 == a)).map Prod.snd).flatMap attachedOf).count b := by
  unfold userDotLines
  rw [List.count_cons, List.count_append, List.count_append, count_edge_map, count_edge_map,
    count_hp_flatMap_groups]
  simp

theorem count_hip_userDotLines (u a b : String) (ud : Val) :
    (userDotLines u ud).count (DotLine.edge a b "has inline policy")
      = (if u = a then (inlineOf ud).count b else 0)
        + ((((groupsOf ud).filter (fun x => x.1 == a)).map Prod.snd).flatMap inlineOf).count b := by
  unfold userDotLines
  rw [List.count_cons, List.count_append, List.count_append, count_edge_map, count_edge_map,
    count_hip_flatMap_groups]
  simp

theorem count_userNode_roleDotLines (r n : String) (rd : Val) :
    (roleDotLines r rd).count (DotLine.userNode n) = 0 := by
  unfold roleDotLines
  rw [List.count_cons, List.count_append,
    count_map_edge_nonedge _ _ _ _ (userNode_ne_edge n),
    count_map_edge_nonedge _ _ _ _ (userNode_ne_edge n)]
  simp

theorem count_roleNode_roleDotLines (r n : String) (rd : Val) :
    (roleDotLines r rd).count (DotLine.roleNode n) = if r = n then 1 else 0 := by
  unfold roleDotLines
  rw [List.count_cons, List.count_append,
    count_map_edge_nonedge _ _ _ _ (roleNode_ne_edge n),
    count_map_edge_nonedge _ _ _ _ (roleNode_ne_edge n)]
  by_cases h : r = n <;> simp [h, beq_iff_eq]

theorem count_policyNode_roleDotLines (r n : String) (rd : Val) :
    (roleDotLines r rd).count (DotLine.policyNode n) = 0 := by
  unfold roleDotLines
  rw [List.count_cons, List.count_append,
    count_map_edge_nonedge _ _ _ _ (policyNode_ne_edge n),
    count_map_edge_nonedge _ _ _ _ (policyNode_ne_edge n)]
  simp

theorem count_memberOf_roleDotLines (r a b : String) (rd : Val) :
    (roleDotLines r rd).count (DotLine.edge a b "member of") = 0 := by
  unfold roleDotLines
  rw [List.count_cons, List.count_append, count_edge_map, count_edge_map]
  simp

theorem count_hp_roleDotLines (r a b : String) (rd : Val) :
    (roleDotLines r rd).count (DotLine.edge a b "has policy")
      = if r = a then (attachedOf rd).count b else 0 := by
  unfold roleDotLines
  rw [List.count_cons, List.count_append, count_edge_map, count_edge_map]
  simp

theorem count_hip_roleDotLines (r a b : String) (rd : Val) :
    (roleDotLines r rd).count (DotLine.edge a b "has inline policy")
      = if r = a then (inlineOf rd).count b else 0 := by
  unfold roleDotLines
  rw [List.count_cons, List.count_append, count_edge_map, count_edge_map]
  simp

theorem count_userNode_usersPart (us : Dict) (n : String) :
    ((us.flatMap (fun e => userDotLines e.1 e.2)).count (DotLine.userNode n))
      = (us.map Prod.fst).count n := by
  induction us with
  | nil => simp
  | cons e us ih =>
      rw [List.flatMap_cons, List.count_append, ih, count_userNode_userDotLines,
        List.map_cons, List.count_cons]
      by_cases h : e.1 = n <;> simp [h, beq_iff_eq] <;> omega

theorem count_roleNode_usersPart (us : Dict) (n : String) :
    ((us.flatMap (fun e => userDotLines e.1 e.2)).count (DotLine.roleNode n)) = 0 :=
  count_flatMap_zero _ _ _ (fun e _ => count_roleNode_userDotLines e.1 n e.2)

theorem count_policyNode_usersPart (us : Dict) (n : String) :
    ((us.flatMap (fun e => userDotLines e.1 e.2)).count (DotLine.policyNode n)) = 0 :=
  count_flatMap_zero _ _ _ (fun e _ => count_policyNode_userDotLines e.1 n e.2)

theorem count_memberOf_usersPart (us : Dict) (a b : String) :
    ((us.flatMap (fun e => userDotLines e.1 e.2)).count (DotLine.edge a b "member of"))
      = (((us.filter (fun e => e.1 == a)).map Prod.snd).flatMap
          (fun v => (groupsOf v).map Prod.fst)).count b := by
  induction us with
  | nil => simp
  | cons e us ih =>
      rw [List.flatMap_cons, List.count_append, ih, count_memberOf_userDotLines,
        List.filter_cons]
      by_cases h : e.1 = a <;> simp [h, List.count_append]

theorem count_hp_usersPart (us : Dict) (a b : String) :
    ((us.flatMap (fun e => userDotLines e.1 e.2)).count (DotLine.edge a b "has policy"))
      = (((us.filter (fun e => e.1 == a)).map Prod.snd).flatMap attachedOf).count b
        + ((us.flatMap
            (fun e => ((groupsOf e.2).filter (fun gr => gr.1 == a)).map Prod.snd)).flatMap
              attachedOf).count b := by
  induction us with
  | nil => simp
  | cons e us ih =>
      rw [List.flatMap_cons, List.count_append, ih, count_hp_userDotLines, List.filter_cons,
        List.flatMap_cons, List.flatMap_append, List.count_append]
      by_cases h : e.1 = a <;> simp [h, List.count_append] <;> omega

theorem count_hip_usersPart (us : Dict) (a b : String) :
    ((us.flatMap (fun e => userDotLines e.1 e.2)).count (DotLine.edge a b "has inline policy"))
      = (((us.filter (fun e => e.1 == a)).map Prod.snd).flatMap inlineOf).count b
        + ((us.flatMap
            (fun e => ((groupsOf e.2).filter (fun gr => gr.1 == a)).map Prod.snd)).flatMap
              inlineOf).count b := by
  induction us with
  | nil => simp
  | cons e us ih =>
      rw [List.flatMap_cons, List.count_append, ih, count_hip_userDotLines, List.filter_cons,
        List.flatMap_cons, List.flatMap_append, List.count_append]
      by_cases h : e.1 = a <;> simp [h, List.count_append] <;> omega

theorem count_roleNode_rolesPart (rs : Dict) (n : String) :
    ((rs.flatMap (fun e => roleDotLines e.1 e.2)).count (DotLine.roleNode n))
      = (rs.map Prod.fst).count n := by
  induction rs with
  | nil => simp
  | cons e rs ih =>
      rw [List.flatMap_cons, List.count_append, ih, count_roleNode_roleDotLines,
        List.map_cons, List.count_cons]
      by_cases h : e.1 = n <;> simp [h, beq_iff_eq] <;> omega

theorem count_userNode_rolesPart (rs : Dict) (n : String) :
    ((rs.flatMap (fun e => roleDotLines e.1 e.2)).count (DotLine.userNode n)) = 0 :=
  count_flatMap_zero _ _ _ (fun e _ => count_userNode_roleDotLines e.1 n e.2)

theorem count_policyNode_rolesPart (rs : Dict) (n : String) :
    ((rs.flatMap (fun e => roleDotLines e.1 e.2)).count (DotLine.policyNode n)) = 0 :=
  count_flatMap_zero _ _ _ (fun e _ => count_policyNode_roleDotLines e.1 n e.2)

theorem count_memberOf_rolesPart (rs : Dict) (a b : String) :
    ((rs.flatMap (fun e => roleDotLines e.1 e.2)).count (DotLine.edge a b "member of")) = 0 :=
  count_flatMap_zero _ _ _ (fun e _ => count_memberOf_roleDotLines e.1 a b e.2)

theorem count_hp_rolesPart (rs : Dict) (a b : String) :
    ((rs.flatMap (fun e => roleDotLines e.1 e.2)).count (DotLine.edge a b "has policy"))
      = (((rs.filter (fun e => e.1 == a)).map Prod.snd).flatMap attachedOf).count b := by
  induction rs with
  | nil => simp
  | cons e rs ih =>
      rw [List.flatMap_cons, List.count_append, ih, count_hp_roleDotLines, List.filter_cons]
      by_cases h : e.1 = a <;> simp [h, List.count_append]

theorem count_hip_rolesPart (rs : Dict) (a b : String) :
    ((rs.flatMap (fun e => roleDotLines e.1 e.2)).count (DotLine.edge a b "has inline policy"))
      = (((rs.filter (fun e => e.1 == a)).map Prod.snd).flatMap inlineOf).count b := by
  induction rs with
  | nil => simp
  | cons e rs ih =>
      rw [List.flatMap_cons, List.count_append, ih, count_hip_roleDotLines, List.filter_cons]
      by_cases h : e.1 = a <;> simp [h, List.count_append]

theorem count_userNode_dotLines (d : Dict) (n : String) :
    (dotLines d).count (DotLine.userNode n) = (userKeys d).count n := by
  unfold dotLines
  rw [List.count_append, List.count_append, List.count_append, List.count_append,
    count_userNode_usersPart, count_userNode_rolesPart, count_userNode_map_policyNode]
  simp [userKeys]

theorem count_roleNode_dotLines (d : Dict) (n : String) :
    (dotLines d).count (DotLine.roleNode n) = (roleKeys d).count n := by
  unfold dotLines
  rw [List.count_append, List.count_append, List.count_append, List.count_append,
    count_roleNode_usersPart, count_roleNode_rolesPart, count_roleNode_map_policyNode]
  simp [roleKeys]

theorem count_policyNode_dotLines (d : Dict) (n : String) :
    (dotLines d).count (DotLine.policyNode n) = (policyKeys d).count n := by
  unfold dotLines
  rw [List.count_append, List.count_append, List.count_append, List.count_append,
    count_policyNode_usersPart, count_policyNode_rolesPart, count_policyNode_map]
  simp [policyKeys]

theorem count_memberOf_dotLines (d : Dict) (a b : String) :
    (dotLines d).count (DotLine.edge a b "member of")
      = ((((usersOf d).filter (fun e => e.1 == a)).map Prod.snd).flatMap
          (fun v => (groupsOf v).map Prod.fst)).count b := by
  unfold dotLines
  rw [List.count_append, List.count_append, List.count_append, List.count_append,
    count_memberOf_usersPart, count_memberOf_rolesPart, count_edge_map_policyNode]
  simp

theorem count_hp_dotLines (d : Dict) (a b : String) :
    (dotLines d).count (DotLine.edge a b "has policy")
      = ((((usersOf d).filter (fun e => e.1 == a)).map Prod.snd).flatMap attachedOf).count b
        + ((membershipRecords d a).flatMap attachedOf).count b
        + ((((rolesOf d).filter (fun e => e.1 == a)).map Prod.snd).flatMap attachedOf).count b := by
  unfold dotLines
  rw [List.count_append, List.count_append, List.count_append, List.count_append,
    count_hp_usersPart, count_hp_rolesPart, count_edge_map_policyNode]
  simp [membershipRecords]

theorem count_hip_dotLines (d : Dict) (a b : String) :
    (dotLines d).count (DotLine.edge a b "has inline policy")
      = ((((usersOf d).filter (fun e => e.1 == a)).map Prod.snd).flatMap inlineOf).count b
        + ((membershipRecords d a).flatMap inlineOf).count b
        + ((((rolesOf d).filter (fun e => e.1 == a)).map Prod.snd).flatMap inlineOf).count b := by
  unfold dotLines
  rw [List.count_append, List.count_append, List.count_append, List.count_append,
    count_hip_usersPart, count_hip_rolesPart, count_edge_map_policyNode]
  simp [membershipRecords]

/-! ### Association-list helpers -/

theorem filter_key_eq_nil (us : Dict) (a : String) (h : a ∉ us.map Prod.fst) :
    us.filter (fun e => e.1 == a) = [] := by
  apply List.filter_eq_nil_iff.mpr
  intro e he hbeq
  exact h (List.mem_map.mpr ⟨e, he, beq_iff_eq.mp hbeq⟩)

theorem filter_key_singleton (us : Dict) (hnd : (us.map Prod.fst).Nodup)
    (u : String) (ud : Val) (hmem : (u, ud) ∈ us) :
    us.filter (fun e => e.1 == u) = [(u, ud)] := by
  induction us with
  | nil => cases hmem
  | cons e us ih =>
      rw [List.map_cons, List.nodup_cons] at hnd
      rcases List.mem_cons.mp hmem with he | hm
      · subst he
        rw [List.filter_cons]
        simp only [beq_self_eq_true, if_pos]
        rw [filter_key_eq_nil us u hnd.1]
      · rw [List.filter_cons]
        have hne : ¬(e.1 == u) = true := by
          simp only [beq_iff_eq]
          intro he1
          exact hnd.1 (he1 ▸ List.mem_map.mpr ⟨(u, ud), hm, rfl⟩)
        rw [if_neg hne]
        exact ih hnd.2 hm

theorem membershipRecords_eq_nil (d : Dict) (u : String) (h : u ∉ allGroupKeys d) :
    membershipRecords d u = [] := by
  unfold membershipRecords
  apply List.flatMap_eq_nil_iff.mpr
  intro e he
  rw [filter_key_eq_nil, List.map_nil]
  intro hmem
  exact h (List.mem_flatMap.mpr ⟨e, he, hmem⟩)

/-- **C1 (amended).**  For every collection whose top-level key lists are
duplicate-free, `write_dot` emits exactly one node declaration per User,
Role and standalone Policy and none for any other name (in particular none
for a Group); exactly one `member of` edge per (user, group) membership;
exactly one policy edge per (user, policy) and (role, policy)
attached/inline pair (for names not shared with another kind); and, for a
group name, one copy of each of the group's policy edges **per (user,
group) membership** — so a group reachable from two users contributes each
of its policy edges twice, not once, and a Group never receives a node
declaration of its own. -/
theorem write_dot_multiplicities (d : Dict)
    (hU : (userKeys d).Nodup) (hR : (roleKeys d).Nodup) (hP : (policyKeys d).Nodup) :
    (∀ n, (dotLines d).count (DotLine.userNode n) = if n ∈ userKeys d then 1 else 0)
    ∧ (∀ n, (dotLines d).count (DotLine.roleNode n) = if n ∈ roleKeys d then 1 else 0)
    ∧ (∀ n, (dotLines d).count (DotLine.policyNode n) = if n ∈ policyKeys d then 1 else 0)
    ∧ (∀ u ud g, (u, ud) ∈ usersOf d →
        (dotLines d).count (DotLine.edge u g "member of")
          = ((groupsOf ud).map Prod.fst).count g)
    ∧ (∀ u ud p, (u, ud) ∈ usersOf d → u ∉ allGroupKeys d → u ∉ roleKeys d →
        (dotLines d).count (DotLine.edge u p "has policy") = (attachedOf ud).count p
        ∧ (dotLines d).count (DotLine.edge u p "has inline policy") = (inlineOf ud).count p)
    ∧ (∀ r rd p, (r, rd) ∈ rolesOf d → r ∉ userKeys d → r ∉ allGroupKeys d →
        (dotLines d).count (DotLine.edge r p "has policy") = (attachedOf rd).count p
        ∧ (dotLines d).count (DotLine.edge r p "has inline policy") = (inlineOf rd).count p)
    ∧ (∀ g p, g ∉ userKeys d → g ∉ roleKeys d →
        (dotLines d).count (DotLine.edge g p "has policy")
          = ((membershipRecords d g).flatMap attachedOf).count p
        ∧ (dotLines d).count (DotLine.edge g p "has inline policy")
          = ((membershipRecords d g).flatMap inlineOf).count p) := by
  refine ⟨?_, ?_, ?_, ?_, ?_, ?_, ?_⟩
  · intro n
    rw [count_userNode_dotLines]
    by_cases hn : n ∈ userKeys d
    · rw [if_pos hn, List.count_eq_one_of_mem hU hn]
    · rw [if_neg hn, List.count_eq_zero_of_not_mem hn]
  · intro n
    rw [count_roleNode_dotLines]
    by_cases hn : n ∈ roleKeys d
    · rw [if_pos hn, List.count_eq_one_of_mem hR hn]
    · rw [if_neg hn, List.count_eq_zero_of_not_mem hn]
  · intro n
    rw [count_policyNode_dotLines]
    by_cases hn : n ∈ policyKeys d
    · rw [if_pos hn, List.count_eq_one_of_mem hP hn]
    · rw [if_neg hn, List.count_eq_zero_of_not_mem hn]
  · intro u ud g hm
    rw [count_memberOf_dotLines, filter_key_singleton (usersOf d) hU u ud hm]
    simp
  · intro u ud p hm hg hr
    constructor
    · rw [count_hp_dotLines, filter_key_singleton (usersOf d) hU u ud hm,
        membershipRecords_eq_nil d u hg, filter_key_eq_nil (rolesOf d) u hr]
      simp
    · rw [count_hip_dotLines, filter_key_singleton (usersOf d) hU u ud hm,
        membershipRecords_eq_nil d u hg, filter_key_eq_nil (rolesOf d) u hr]
      simp
  · intro r rd p hm hu hg
    constructor
    · rw [count_hp_dotLines, filter_key_singleton (rolesOf d) hR r rd hm,
        membershipRecords_eq_nil d r hg, filter_key_eq_nil (usersOf d) r hu]
      simp
    · rw [count_hip_dotLines, filter_key_singleton (rolesOf d) hR r rd hm,
        membershipRecords_eq_nil d r hg, filter_key_eq_nil (usersOf d) r hu]
      simp
  · intro g p hu hr
    constructor
    · rw [count_hp_dotLines, filter_key_eq_nil (usersOf d) g hu,
        filter_key_eq_nil (rolesOf d) g hr]
      simp
    · rw [count_hip_dotLines, filter_key_eq_nil (usersOf d) g hu,
        filter_key_eq_nil (rolesOf d) g hr]
      simp

/-! ### Collector lemmas -/

theorem exceptOk_iff {α : Type} (e : Except String α) :
    exceptOk e = true ↔ ∃ d, e = Except.ok d := by
  cases e <;> simp [exceptOk]

theorem bool_imp_iff (a b : Bool) : ((!a || b) = true) ↔ (a = true → b = true) := by
  cases a <;> cases b <;> simp

theorem policyScan_go_snd (n : String) (ps : List Policy) :
    ∀ acc : Dict × Bool,
      (ps.foldl
        (fun acc p =>
          if p.policyName == n then (dictInsert acc.1 n (policyRec p), true) else acc)
        acc).2
      = (acc.2 || ps.any (fun p => p.policyName == n)) := by
  induction ps with
  | nil => intro acc; simp
  | cons p ps ih =>
      intro acc
      rw [List.foldl_cons]
      by_cases h : p.policyName == n
      · rw [if_pos h, ih]
        simp [h]
      · rw [if_neg h, ih]
        simp only [List.any_cons]
        rw [Bool.eq_false_iff.mpr h]
        simp

theorem policyScan_snd (ps : List Policy) (n : String) :
    (policyScan ps n).2 = ps.any (fun p => p.policyName == n) := by
  unfold policyScan
  rw [policyScan_go_snd]
  simp

theorem get_iam_data_named_ok_iff (c : IamClient) (ents : List String) (n : String) :
    (∃ d, get_iam_data c ents (some n) = Except.ok d) ↔
      ((wants ents "users" = true → n ∈ c.users)
       ∧ (wants ents "roles" = true → n ∈ c.roles)
       ∧ (wants ents "policies" = true → ∃ p ∈ c.policies, p.policyName = n)) := by
  cases hwu : wants ents "users" <;> cases hwr : wants ents "roles" <;>
    cases hwp : wants ents "policies" <;>
    by_cases hcu : n ∈ c.users <;> by_cases hcr : n ∈ c.roles <;>
    by_cases hca : ∃ p ∈ c.policies, p.policyName = n <;>
    simp [get_iam_data, hwu, hwr, hwp, hcu, hcr, hca, usersSection, rolesSection,
      policiesSection, policyScan_snd, Except.map, List.any_eq_true, beq_iff_eq]

theorem get_iam_data_user_missing (c : IamClient) (ents : List String) (n : String)
    (hw : wants ents "users" = true) (hc : n ∉ c.users) :
    get_iam_data c ents (some n) = Except.error (userMsg n) := by
  simp [get_iam_data, hw, usersSection, hc, Except.map]

theorem get_iam_data_role_missing (c : IamClient) (ents : List String) (n : String)
    (hu : wants ents "users" = true → n ∈ c.users)
    (hw : wants ents "roles" = true) (hc : n ∉ c.roles) :
    get_iam_data c ents (some n) = Except.error (roleMsg n) := by
  cases hwu : wants ents "users"
  · simp [get_iam_data, hwu, hw, rolesSection, hc, Except.map]
  · simp [get_iam_data, hwu, hu hwu, usersSection, hw, rolesSection, hc, Except.map]

theorem get_iam_data_policy_missing (c : IamClient) (ents : List String) (n : String)
    (hu : wants ents "users" = true → n ∈ c.users)
    (hr : wants ents "roles" = true → n ∈ c.roles)
    (hw : wants ents "policies" = true)
    (hc : ¬ ∃ p ∈ c.policies, p.policyName = n) :
    get_iam_data c ents (some n) = Except.error (policyMsg n) := by
  have hany : c.policies.any (fun p => p.policyName == n) = false := by
    rw [← Bool.not_eq_true, List.any_eq_true]
    simpa [beq_iff_eq] using hc
  cases hwu : wants ents "users" <;> cases hwr : wants ents "roles" <;>
    simp [get_iam_data, hwu, hwr, hu, hr, usersSection, rolesSection, hw,
      policiesSection, policyScan_snd, hany, Except.map]

theorem get_iam_data_no_kinds (c : IamClient) (ents : List String) (name : Option String)
    (hu : wants ents "users" = false) (hr : wants ents "roles" = false)
    (hp : wants ents "policies" = false) :
    get_iam_data c ents name = Except.ok [] := by
  simp [get_iam_data, hu, hr, hp]

theorem contains_eq_false_of_not_mem {l : List String} {a : String} (h : a ∉ l) :
    l.contains a = false := by
  cases hc : l.contains a
  · rfl
  · exact absurd (List.mem_of_elem_eq_true hc) h

theorem wants_eq_false {ents : List String} {k : String} (hk : k ∉ ents)
    (ha : "all" ∉ ents) : wants ents k = false := by
  unfold wants
  rw [contains_eq_false_of_not_mem hk, contains_eq_false_of_not_mem ha]
  rfl

/-! ### Claim C2 -/

/-- **C2.**  For every entity-kind selection with no name filter,
`get_iam_data` succeeds and its result has as top-level keys exactly the
requested kinds among Users, Roles, Policies (in that order) and no other
keys. -/
theorem get_iam_data_top_keys (c : IamClient) (ents : List String) :
    ∃ d, get_iam_data c ents none = Except.ok d
      ∧ d.map Prod.fst
          = (if wants ents "users" then ["Users"] else [])
            ++ (if wants ents "roles" then ["Roles"] else [])
            ++ (if wants ents "policies" then ["Policies"] else []) := by
  cases hwu : wants ents "users" <;> cases hwr : wants ents "roles" <;>
    cases hwp : wants ents "policies" <;>
    simp [get_iam_data, hwu, hwr, hwp, usersSection, rolesSection, policiesSection,
      Except.map]

/-! ### Claim C6 -/

/-- **C6.**  With a target name, the collector looks the name up in every
requested kind and succeeds exactly when it exists in each of them (so
under `--entities all` the name must exist as a user, a role and a
policy); it terminates with the not-found diagnostic of the first
requested kind in which the name is missing. -/
theorem named_lookup_requires_every_kind (c : IamClient) (ents : List String) (n : String) :
    ((∃ d, get_iam_data c ents (some n) = Except.ok d) ↔
      ((wants ents "users" = true → n ∈ c.users)
       ∧ (wants ents "roles" = true → n ∈ c.roles)
       ∧ (wants ents "policies" = true → ∃ p ∈ c.policies, p.policyName = n)))
    ∧ (wants ents "users" = true → n ∉ c.users →
        get_iam_data c ents (some n) = Except.error (userMsg n))
    ∧ ((wants ents "users" = true → n ∈ c.users) →
        wants ents "roles" = true → n ∉ c.roles →
        get_iam_data c ents (some n) = Except.error (roleMsg n))
    ∧ ((wants ents "users" = true → n ∈ c.users) →
        (wants ents "roles" = true → n ∈ c.roles) →
        wants ents "policies" = true → (¬ ∃ p ∈ c.policies, p.policyName = n) →
        get_iam_data c ents (some n) = Except.error (policyMsg n)) :=
  ⟨get_iam_data_named_ok_iff c ents n,
   fun hw hc => get_iam_data_user_missing c ents n hw hc,
   fun hu hw hc => get_iam_data_role_missing c ents n hu hw hc,
   fun hu hr hw hc => get_iam_data_policy_missing c ents n hu hr hw hc⟩

/-- Witness for C6: the name `x` exists as user, role and policy in
`fullClient`, so the lookup succeeds there; in `emptyClient` it fails with
the user diagnostic. -/
theorem named_lookup_requires_every_kind_witness :
    (∃ d, get_iam_data fullClient ["all"] (some "x") = Except.ok d)
    ∧ get_iam_data emptyClient ["all"] (some "x") = Except.error (userMsg "x") :=
  ⟨(named_lookup_requires_every_kind fullClient ["all"] "x").1.mpr
     ⟨fun _ => by decide, fun _ => by decide,
      fun _ => ⟨⟨"x", "arn:x", 1, "v1"⟩, by decide, rfl⟩⟩,
   (named_lookup_requires_every_kind emptyClient ["all"] "x").2.1 (by decide) (by decide)⟩

/-! ### Claim C4 -/

/-- **C4.**  When a target name is given and it is missing in some
requested kind, the run exits with status 1 and neither a YAML file, nor
console YAML, nor a DOT file is written, and no image is created. -/
theorem named_missing_no_outputs (c : IamClient) (genv : GraphEnv) (args : Args)
    (n : String) (hname : args.name = some n)
    (hmiss :
      (wants (parseEntities args.entities) "users" = true ∧ n ∉ c.users)
      ∨ (wants (parseEntities args.entities) "roles" = true ∧ n ∉ c.roles)
      ∨ (wants (parseEntities args.entities) "policies" = true
          ∧ ¬ ∃ p ∈ c.policies, p.policyName = n)) :
    main_run c genv args = ⟨1, none, none, none, false⟩ := by
  have hnook : ¬ ∃ d, get_iam_data c (parseEntities args.entities) (some n) = Except.ok d := by
    rw [get_iam_data_named_ok_iff]
    rcases hmiss with ⟨h1, h2⟩ | ⟨h1, h2⟩ | ⟨h1, h2⟩
    · exact fun hall => h2 (hall.1 h1)
    · exact fun hall => h2 (hall.2.1 h1)
    · exact fun hall => h2 (hall.2.2 h1)
  unfold main_run
  rw [hname]
  cases hgd : get_iam_data c (parseEntities args.entities) (some n) with
  | error e => rfl
  | ok d => exact absurd ⟨d, hgd⟩ hnook

/-- Witness for C4: requesting the missing user `ghost` from the empty
API writes nothing and exits 1. -/
theorem named_missing_no_outputs_witness :
    main_run emptyClient ⟨true, 0⟩ missArgs = ⟨1, none, none, none, false⟩ :=
  named_missing_no_outputs emptyClient ⟨true, 0⟩ missArgs "ghost" rfl
    (Or.inl ⟨by decide, by decide⟩)

/-! ### Claim C9 -/

/-- **C9.**  When the trimmed, lowercased entity tokens include none of
`users`, `roles`, `policies`, `all`, the collector returns the empty
mapping without signalling any error (even when a target name is given),
and the run proceeds to write the empty YAML document and exit 0. -/
theorem unknown_entities_empty_result (c : IamClient) (genv : GraphEnv) (args : Args)
    (h1 : "users" ∉ parseEntities args.entities)
    (h2 : "roles" ∉ parseEntities args.entities)
    (h3 : "policies" ∉ parseEntities args.entities)
    (h4 : "all" ∉ parseEntities args.entities) :
    get_iam_data c (parseEntities args.entities) args.name = Except.ok []
    ∧ (args.printYaml = false → args.generateGraph = false →
        main_run c genv args = ⟨0, some ["\x7b\x7d"], none, none, false⟩) := by
  have hok := get_iam_data_no_kinds c (parseEntities args.entities) args.name
    (wants_eq_false h1 h4) (wants_eq_false h2 h4) (wants_eq_false h3 h4)
  refine ⟨hok, fun hpy hgg => ?_⟩
  unfold main_run
  rw [hok]
  simp [hpy, hgg, write_yaml]

/-- Witness for C9: the misspelled selection `userz` with the name
`ghost` yields the empty collection and an empty YAML file, exit 0. -/
theorem unknown_entities_empty_result_witness :
    get_iam_data emptyClient (parseEntities typoArgs.entities) typoArgs.name = Except.ok []
    ∧ main_run emptyClient ⟨true, 0⟩ typoArgs = ⟨0, some ["\x7b\x7d"], none, none, false⟩ := by
  have h := unknown_entities_empty_result emptyClient ⟨true, 0⟩ typoArgs
    (by decide) (by decide) (by decide) (by decide)
  exact ⟨h.1, h.2 rfl rfl⟩

/-! ### Claim C7 -/

/-- **C7.**  The renderer makes a single external invocation: if the
layout tool is absent the run exits 1 with the specific diagnostic and no
image is created; if the tool exits non-zero its error is surfaced and the
run exits 1 with no image; otherwise the image is produced and the run
continues with exit 0.  There is no retry and no alternate renderer. -/
theorem generate_graph_failure_modes (env : GraphEnv) (df img : String) :
    (env.dotInstalled = false →
      generate_graph env df img = ⟨1, dotMissingMsg, false⟩)
    ∧ (env.dotInstalled = true → env.dotExitCode ≠ 0 →
      generate_graph env df img
        = ⟨1, "Error generating graph: " ++ calledProcessErrorStr env.dotExitCode, false⟩)
    ∧ (env.dotInstalled = true → env.dotExitCode = 0 →
      generate_graph env df img = ⟨0, "Graph image generated: " ++ img, true⟩) := by
  refine ⟨fun h => ?_, fun h hc => ?_, fun h hc => ?_⟩
  · simp [generate_graph, h]
  · simp [generate_graph, h, hc]
  · simp [generate_graph, h, hc]

/-- Witness for C7: an absent tool and a tool failing with exit status 2. -/
theorem generate_graph_failure_modes_witness :
    generate_graph ⟨false, 0⟩ "iam_graph.dot" "iam_graph.png" = ⟨1, dotMissingMsg, false⟩
    ∧ generate_graph ⟨true, 2⟩ "iam_graph.dot" "iam_graph.png"
        = ⟨1, "Error generating graph: " ++ calledProcessErrorStr 2, false⟩ :=
  ⟨(generate_graph_failure_modes ⟨false, 0⟩ "iam_graph.dot" "iam_graph.png").1 rfl,
   (generate_graph_failure_modes ⟨true, 2⟩ "iam_graph.dot" "iam_graph.png").2.1 rfl
     (by decide)⟩

/-! ### Serialization order lemmas -/

theorem yamlEntry_level_le : ∀ (f lvl : Nat) (k : String) (v : Val),
    ∀ p ∈ yamlEntry f lvl k v, lvl ≤ p.1 := by
  intro f
  induction f with
  | zero =>
      intro lvl k v p hp
      simp only [yamlEntry, List.mem_singleton] at hp
      simp [hp]
  | succ f ih =>
      intro lvl k v p hp
      cases v with
      | str s =>
          simp only [yamlEntry, List.mem_singleton] at hp
          simp [hp]
      | nat n =>
          simp only [yamlEntry, List.mem_singleton] at hp
          simp [hp]
      | list items =>
          cases items with
          | nil =>
              simp only [yamlEntry, List.mem_singleton] at hp
              simp [hp]
          | cons x xs =>
              simp only [yamlEntry, List.mem_cons, List.mem_map] at hp
              rcases hp with hp | ⟨a, _, hp⟩
              · simp [hp]
              · rw [← hp]
                exact Nat.le_succ lvl
      | map es =>
          cases es with
          | nil =>
              simp only [yamlEntry, List.mem_singleton] at hp
              simp [hp]
          | cons e es =>
              simp only [yamlEntry, List.mem_cons, List.mem_flatMap] at hp
              rcases hp with hp | ⟨a, _, hp⟩
              · simp [hp]
              · have := ih (lvl + 1) a.1 a.2 p hp
                omega

theorem yamlEntry_filter_top (k : String) (v : Val) :
    (yamlEntry 8 0 k v).filter (fun p => p.1 == 0) = [(0, topHead k v)] := by
  cases v with
  | str s => simp [yamlEntry, topHead]
  | nat n => simp [yamlEntry, topHead]
  | list items =>
      cases items with
      | nil => simp [yamlEntry, topHead]
      | cons x xs =>
          simp only [yamlEntry, topHead, List.filter_cons]
          rw [if_pos (by simp)]
          rw [List.filter_eq_nil_iff.mpr]
          intro p hp
          rcases List.mem_map.mp hp with ⟨a, _, ha⟩
          simp [← ha]
  | map es =>
      cases es with
      | nil => simp [yamlEntry, topHead]
      | cons e es =>
          simp only [yamlEntry, topHead, List.filter_cons]
          rw [if_pos (by simp)]
          rw [List.filter_eq_nil_iff.mpr]
          intro p hp
          have hle : 1 ≤ p.1 := by
            rcases List.mem_flatMap.mp hp with ⟨a, _, ha⟩
            exact yamlEntry_level_le 7 1 a.1 a.2 p ha
          simp only [beq_iff_eq]
          omega

theorem yaml_top_level_lines (d : Dict) :
    (yamlLines d).filter (fun p => p.1 == 0)
      = d.map (fun e => ((0 : Nat), topHead e.1 e.2)) := by
  unfold yamlLines
  induction d with
  | nil => simp
  | cons e d ih =>
      rw [List.flatMap_cons, List.filter_append, ih, yamlEntry_filter_top, List.map_cons]
      rfl

theorem filterMap_nodeName_edges (s lbl : String) (xs : List String) :
    (xs.map (fun p => DotLine.edge s p lbl)).filterMap nodeName = [] := by
  rw [List.filterMap_eq_nil_iff]
  intro a ha
  rcases List.mem_map.mp ha with ⟨p, _, hp⟩
  rw [← hp]
  rfl

theorem filterMap_nodeName_groupDotLines (u : String) (g : String × Val) :
    (groupDotLines u g).filterMap nodeName = [] := by
  unfold groupDotLines
  rw [List.filterMap_cons, List.filterMap_append, filterMap_nodeName_edges,
    filterMap_nodeName_edges]
  rfl

theorem filterMap_nodeName_userDotLines (u : String) (ud : Val) :
    (userDotLines u ud).filterMap nodeName = [u] := by
  unfold userDotLines
  rw [List.filterMap_cons]
  have hgl : ((groupsOf ud).flatMap (groupDotLines u)).filterMap nodeName = [] := by
    rw [List.filterMap_eq_nil_iff]
    intro a ha
    rcases List.mem_flatMap.mp ha with ⟨g, hg, hag⟩
    have := filterMap_nodeName_groupDotLines u g
    rw [List.filterMap_eq_nil_iff] at this
    exact this a hag
  rw [show nodeName (DotLine.userNode u) = some u from rfl]
  rw [List.filterMap_append, List.filterMap_append, filterMap_nodeName_edges,
    filterMap_nodeName_edges, hgl]
  rfl

theorem filterMap_nodeName_roleDotLines (r : String) (rd : Val) :
    (roleDotLines r rd).filterMap nodeName = [r] := by
  unfold roleDotLines
  rw [List.filterMap_cons]
  rw [show nodeName (DotLine.roleNode r) = some r from rfl]
  rw [List.filterMap_append, filterMap_nodeName_edges, filterMap_nodeName_edges]
  rfl

theorem filterMap_nodeName_usersPart (us : Dict) :
    ((us.flatMap (fun e => userDotLines e.1 e.2)).filterMap nodeName) = us.map Prod.fst := by
  induction us with
  | nil => simp
  | cons e us ih =>
      rw [List.flatMap_cons, List.filterMap_append, ih, filterMap_nodeName_userDotLines]
      rfl

theorem filterMap_nodeName_rolesPart (rs : Dict) :
    ((rs.flatMap (fun e => roleDotLines e.1 e.2)).filterMap nodeName) = rs.map Prod.fst := by
  induction rs with
  | nil => simp
  | cons e rs ih =>
      rw [List.flatMap_cons, List.filterMap_append, ih, filterMap_nodeName_roleDotLines]
      rfl

theorem filterMap_nodeName_policiesPart (ps : Dict) :
    ((ps.map (fun p => DotLine.policyNode p.1)).filterMap nodeName) = ps.map Prod.fst := by
  induction ps with
  | nil => simp
  | cons e ps ih =>
      rw [List.map_cons, List.filterMap_cons]
      rw [show nodeName (DotLine.policyNode e.1) = some e.1 from rfl, ih]
      rfl

theorem dot_node_order (d : Dict) :
    (dotLines d).filterMap nodeName = userKeys d ++ roleKeys d ++ policyKeys d := by
  unfold dotLines
  rw [List.filterMap_append, List.filterMap_append, List.filterMap_append,
    List.filterMap_append, filterMap_nodeName_usersPart, filterMap_nodeName_rolesPart,
    filterMap_nodeName_policiesPart]
  simp [userKeys, roleKeys, policyKeys, nodeName]

/-! ### Claim C5 -/

/-- **C5.**  `write_yaml` and `write_dot` are deterministic functions of
the collection (equal inputs give byte-identical output), and insertion
order is preserved with no sorting: the level-0 lines of the YAML dump are
exactly one line per top-level key in insertion order, and the node
declarations of the DOT output name the Users, Roles and Policies keys in
insertion order. -/
theorem serialization_deterministic_order (d1 d2 : Dict) (h : d1 = d2) :
    write_yaml d1 = write_yaml d2
    ∧ write_dot d1 = write_dot d2
    ∧ (yamlLines d1).filter (fun p => p.1 == 0)
        = d1.map (fun e => ((0 : Nat), topHead e.1 e.2))
    ∧ (dotLines d1).filterMap nodeName = userKeys d1 ++ roleKeys d1 ++ policyKeys d1 :=
  ⟨h ▸ rfl, h ▸ rfl, yaml_top_level_lines d1, dot_node_order d1⟩

/-- Witness for C5, at the spec's `alice` collection. -/
theorem serialization_deterministic_order_witness :
    (yamlLines aliceData).filter (fun p => p.1 == 0) = [((0 : Nat), "Users:")]
    ∧ (dotLines aliceData).filterMap nodeName = ["alice"] := by
  have h := serialization_deterministic_order aliceData aliceData rfl
  exact ⟨h.2.2.1.trans (by decide), h.2.2.2.trans (by decide)⟩

/-! ### Collection shape lemmas -/

theorem dictInsert_snd_prop (P : Val → Prop) (d : Dict) (k : String) (v : Val)
    (h0 : ∀ e ∈ d, P e.2) (hv : P v) : ∀ e ∈ dictInsert d k v, P e.2 := by
  intro e he
  unfold dictInsert at he
  by_cases hc : d.any (fun x => x.1 == k)
  · rw [if_pos hc] at he
    rcases List.mem_map.mp he with ⟨x, hx, hxe⟩
    by_cases hk : (x.1 == k) = true
    · rw [if_pos hk] at hxe
      rw [← hxe]
      exact hv
    · rw [if_neg hk] at hxe
      rw [← hxe]
      exact h0 x hx
  · rw [if_neg hc] at he
    rcases List.mem_append.mp he with hd | hs
    · exact h0 e hd
    · rw [List.mem_singleton.mp hs]
      exact hv

theorem foldl_dictInsert_snd_prop {α : Type} (P : Val → Prop) (key : α → String)
    (f : α → Val) (l : List α) :
    ∀ init : Dict, (∀ e ∈ init, P e.2) → (∀ a ∈ l, P (f a)) →
      ∀ e ∈ l.foldl (fun acc a => dictInsert acc (key a) (f a)) init, P e.2 := by
  induction l with
  | nil => intro init h0 _ e he; exact h0 e he
  | cons a l ih =>
      intro init h0 hf e he
      rw [List.foldl_cons] at he
      exact ih (dictInsert init (key a) (f a))
        (dictInsert_snd_prop P init (key a) (f a) h0 (hf a (by simp)))
        (fun x hx => hf x (by simp [hx])) e he

theorem policyScan_fst_prop (n : String) (ps : List Policy) :
    ∀ acc : Dict × Bool, (∀ e ∈ acc.1, ∃ p, e.2 = policyRec p) →
      ∀ e ∈ (ps.foldl
        (fun acc p =>
          if p.policyName == n then (dictInsert acc.1 n (policyRec p), true) else acc)
        acc).1, ∃ p, e.2 = policyRec p := by
  induction ps with
  | nil => intro acc h0 e he; exact h0 e he
  | cons p ps ih =>
      intro acc h0 e he
      rw [List.foldl_cons] at he
      by_cases hp : (p.policyName == n) = true
      · rw [if_pos hp] at he
        exact ih (dictInsert acc.1 n (policyRec p), true)
          (dictInsert_snd_prop (fun v => ∃ q, v = policyRec q) acc.1 n (policyRec p) h0
            ⟨p, rfl⟩) e he
      · rw [if_neg hp] at he
        exact ih acc h0 e he

theorem usersSection_vals (c : IamClient) (name : Option String) (us : Dict)
    (h : usersSection c name = Except.ok us) :
    ∀ e ∈ us, ∃ u, e.2 = get_user_data c u := by
  cases name with
  | some n =>
      simp only [usersSection] at h
      by_cases hc : n ∈ c.users
      · rw [if_pos hc] at h
        simp only [Except.ok.injEq] at h
        intro e he
        rw [← h] at he
        rw [List.mem_singleton.mp he]
        exact ⟨n, rfl⟩
      · rw [if_neg hc] at h
        exact absurd h (by simp)
  | none =>
      simp only [usersSection, Except.ok.injEq] at h
      intro e he
      rw [← h] at he
      exact foldl_dictInsert_snd_prop (fun v => ∃ u, v = get_user_data c u)
        (fun u => u) (fun u => get_user_data c u) c.users [] (by simp)
        (fun a _ => ⟨a, rfl⟩) e he

theorem rolesSection_vals (c : IamClient) (name : Option String) (rs : Dict)
    (h : rolesSection c name = Except.ok rs) :
    ∀ e ∈ rs, ∃ r, e.2 = get_role_data c r := by
  cases name with
  | some n =>
      simp only [rolesSection] at h
      by_cases hc : n ∈ c.roles
      · rw [if_pos hc] at h
        simp only [Except.ok.injEq] at h
        intro e he
        rw [← h] at he
        rw [List.mem_singleton.mp he]
        exact ⟨n, rfl⟩
      · rw [if_neg hc] at h
        exact absurd h (by simp)
  | none =>
      simp only [rolesSection, Except.ok.injEq] at h
      intro e he
      rw [← h] at he
      exact foldl_dictInsert_snd_prop (fun v => ∃ r, v = get_role_data c r)
        (fun r => r) (fun r => get_role_data c r) c.roles [] (by simp)
        (fun a _ => ⟨a, rfl⟩) e he

theorem policiesSection_vals (c : IamClient) (name : Option String) (ps : Dict)
    (h : policiesSection c name = Except.ok ps) :
    ∀ e ∈ ps, ∃ p, e.2 = policyRec p := by
  cases name with
  | some n =>
      simp only [policiesSection] at h
      by_cases hf : (policyScan c.policies n).2
      · rw [if_pos hf] at h
        simp only [Except.ok.injEq] at h
        intro e he
        rw [← h] at he
        exact policyScan_fst_prop n c.policies ([], false) (by simp) e he
      · rw [if_neg hf] at h
        exact absurd h (by simp)
  | none =>
      simp only [policiesSection, Except.ok.injEq] at h
      intro e he
      rw [← h] at he
      exact foldl_dictInsert_snd_prop (fun v => ∃ p, v = policyRec p)
        (fun p => p.policyName) (fun p => policyRec p) c.policies [] (by simp)
        (fun a _ => ⟨a, rfl⟩) e he

theorem part_ok_inv (b : Bool) (sec : Except String Dict) (key : String) (part : Dict)
    (h : (if b then sec.map (fun s => [(key, Val.map s)]) else Except.ok [])
          = Except.ok part) :
    part = [] ∨ ∃ us, sec = Except.ok us ∧ part = [(key, Val.map us)] := by
  cases b
  · left
    simp only [Bool.false_eq_true, if_false, Except.ok.injEq] at h
    exact h.symm
  · cases hs : sec with
    | error e =>
        rw [hs] at h
        simp [Except.map] at h
    | ok us =>
        rw [hs] at h
        simp only [Except.map, if_true, Except.ok.injEq] at h
        right
        exact ⟨us, rfl, h.symm⟩

theorem get_iam_data_ok_inv (c : IamClient) (ents : List String) (name : Option String)
    (d : Dict) (h : get_iam_data c ents name = Except.ok d) :
    ∃ pU pR pP, d = pU ++ pR ++ pP
      ∧ (pU = [] ∨ ∃ us, usersSection c name = Except.ok us
          ∧ pU = [("Users", Val.map us)])
      ∧ (pR = [] ∨ ∃ rs, rolesSection c name = Except.ok rs
          ∧ pR = [("Roles", Val.map rs)])
      ∧ (pP = [] ∨ ∃ ps, policiesSection c name = Except.ok ps
          ∧ pP = [("Policies", Val.map ps)]) := by
  unfold get_iam_data at h
  cases h1 : (if wants ents "users"
      then (usersSection c name).map (fun s => [("Users", Val.map s)])
      else Except.ok []) with
  | error e =>
      rw [h1] at h
      simp at h
  | ok pU =>
      rw [h1] at h
      cases h2 : (if wants ents "roles"
          then (rolesSection c name).map (fun s => [("Roles", Val.map s)])
          else Except.ok []) with
      | error e =>
          rw [h2] at h
          simp at h
      | ok pR =>
          rw [h2] at h
          cases h3 : (if wants ents "policies"
              then (policiesSection c name).map (fun s => [("Policies", Val.map s)])
              else Except.ok []) with
          | error e =>
              rw [h3] at h
              simp at h
          | ok pP =>
              rw [h3] at h
              simp only [Except.ok.injEq] at h
              exact ⟨pU, pR, pP, h.symm, part_ok_inv _ _ _ _ h1,
                part_ok_inv _ _ _ _ h2, part_ok_inv _ _ _ _ h3⟩

theorem groupsOf_get_user_data (c : IamClient) (u : String) :
    groupsOf (get_user_data c u)
      = (c.userGroups u).foldl (fun acc g => dictInsert acc g (get_group_data c g)) [] :=
  rfl

theorem users_entry_section (c : IamClient) (ents : List String) (name : Option String)
    (d : Dict) (us : Dict) (h : get_iam_data c ents name = Except.ok d)
    (hmem : ("Users", Val.map us) ∈ d) : usersSection c name = Except.ok us := by
  obtain ⟨pU, pR, pP, hd, hU, hR, hP⟩ := get_iam_data_ok_inv c ents name d h
  subst hd
  rcases List.mem_append.mp hmem with hm | hm
  · rcases List.mem_append.mp hm with hm | hm
    · rcases hU with h0 | ⟨us0, hok, hpU⟩
      · rw [h0] at hm
        cases hm
      · rw [hpU] at hm
        have heq := List.mem_singleton.mp hm
        have hv : Val.map us = Val.map us0 := congrArg Prod.snd heq
        have : us = us0 := by injection hv
        rw [this]
        exact hok
    · rcases hR with h0 | ⟨rs0, _, hpR⟩
      · rw [h0] at hm
        cases hm
      · rw [hpR] at hm
        have heq := List.mem_singleton.mp hm
        have : "Users" = "Roles" := congrArg Prod.fst heq
        exact absurd this (by decide)
  · rcases hP with h0 | ⟨ps0, _, hpP⟩
    · rw [h0] at hm
      cases hm
    · rw [hpP] at hm
      have heq := List.mem_singleton.mp hm
      have : "Users" = "Policies" := congrArg Prod.fst heq
      exact absurd this (by decide)

theorem roles_entry_section (c : IamClient) (ents : List String) (name : Option String)
    (d : Dict) (rs : Dict) (h : get_iam_data c ents name = Except.ok d)
    (hmem : ("Roles", Val.map rs) ∈ d) : rolesSection c name = Except.ok rs := by
  obtain ⟨pU, pR, pP, hd, hU, hR, hP⟩ := get_iam_data_ok_inv c ents name d h
  subst hd
  rcases List.mem_append.mp hmem with hm | hm
  · rcases List.mem_append.mp hm with hm | hm
    · rcases hU with h0 | ⟨us0, _, hpU⟩
      · rw [h0] at hm
        cases hm
      · rw [hpU] at hm
        have heq := List.mem_singleton.mp hm
        have : "Roles" = "Users" := congrArg Prod.fst heq
        exact absurd this (by decide)
    · rcases hR with h0 | ⟨rs0, hok, hpR⟩
      · rw [h0] at hm
        cases hm
      · rw [hpR] at hm
        have heq := List.mem_singleton.mp hm
        have hv : Val.map rs = Val.map rs0 := congrArg Prod.snd heq
        have : rs = rs0 := by injection hv
        rw [this]
        exact hok
  · rcases hP with h0 | ⟨ps0, _, hpP⟩
    · rw [h0] at hm
      cases hm
    · rw [hpP] at hm
      have heq := List.mem_singleton.mp hm
      have : "Roles" = "Policies" := congrArg Prod.fst heq
      exact absurd this (by decide)

theorem policies_entry_section (c : IamClient) (ents : List String) (name : Option String)
    (d : Dict) (ps : Dict) (h : get_iam_data c ents name = Except.ok d)
    (hmem : ("Policies", Val.map ps) ∈ d) : policiesSection c name = Except.ok ps := by
  obtain ⟨pU, pR, pP, hd, hU, hR, hP⟩ := get_iam_data_ok_inv c ents name d h
  subst hd
  rcases List.mem_append.mp hmem with hm | hm
  · rcases List.mem_append.mp hm with hm | hm
    · rcases hU with h0 | ⟨us0, _, hpU⟩
      · rw [h0] at hm
        cases hm
      · rw [hpU] at hm
        have heq := List.mem_singleton.mp hm
        have : "Policies" = "Users" := congrArg Prod.fst heq
        exact absurd this (by decide)
    · rcases hR with h0 | ⟨rs0, _, hpR⟩
      · rw [h0] at hm
        cases hm
      · rw [hpR] at hm
        have heq := List.mem_singleton.mp hm
        have : "Policies" = "Roles" := congrArg Prod.fst heq
        exact absurd this (by decide)
  · rcases hP with h0 | ⟨ps0, hok, hpP⟩
    · rw [h0] at hm
      cases hm
    · rw [hpP] at hm
      have heq := List.mem_singleton.mp hm
      have hv : Val.map ps = Val.map ps0 := congrArg Prod.snd heq
      have : ps = ps0 := by injection hv
      rw [this]
      exact hok

/-! ### Claim C8 -/

/-- **C8.**  Every record in any collection the collector produces has a
fixed key set, in a fixed order: User records have exactly
`AttachedPolicies, InlinePolicies, Groups`; Role and Group records exactly
`AttachedPolicies, InlinePolicies`; standalone Policy records exactly
`Arn, AttachmentCount, DefaultVersionId`. -/
theorem collection_record_shapes (c : IamClient) (ents : List String)
    (name : Option String) (d : Dict) (h : get_iam_data c ents name = Except.ok d) :
    (∀ us, ("Users", Val.map us) ∈ d → ∀ e ∈ us,
        recKeys e.2 = ["AttachedPolicies", "InlinePolicies", "Groups"]
        ∧ ∀ g ∈ groupsOf e.2, recKeys g.2 = ["AttachedPolicies", "InlinePolicies"])
    ∧ (∀ rs, ("Roles", Val.map rs) ∈ d → ∀ e ∈ rs,
        recKeys e.2 = ["AttachedPolicies", "InlinePolicies"])
    ∧ (∀ ps, ("Policies", Val.map ps) ∈ d → ∀ e ∈ ps,
        recKeys e.2 = ["Arn", "AttachmentCount", "DefaultVersionId"]) := by
  refine ⟨?_, ?_, ?_⟩
  · intro us hmem e he
    obtain ⟨u, hu⟩ := usersSection_vals c name us
      (users_entry_section c ents name d us h hmem) e he
    constructor
    · rw [hu]
      rfl
    · intro g hg
      rw [hu, groupsOf_get_user_data] at hg
      obtain ⟨gn, hgn⟩ := foldl_dictInsert_snd_prop
        (fun v => ∃ gn, v = get_group_data c gn) (fun x => x)
        (fun gname => get_group_data c gname) (c.userGroups u) [] (by simp)
        (fun a _ => ⟨a, rfl⟩) g hg
      rw [hgn]
      rfl
  · intro rs hmem e he
    obtain ⟨r, hr⟩ := rolesSection_vals c name rs
      (roles_entry_section c ents name d rs h hmem) e he
    rw [hr]
    rfl
  · intro ps hmem e he
    obtain ⟨p, hp⟩ := policiesSection_vals c name ps
      (policies_entry_section c ents name d ps h hmem) e he
    rw [hp]
    rfl

/-- Witness for C8, on the two-user collection of `demoClient`: the user
record and the group record carry exactly the fixed key sets. -/
theorem collection_record_shapes_witness :
    recKeys demoUserRec = ["AttachedPolicies", "InlinePolicies", "Groups"]
    ∧ recKeys devsRec = ["AttachedPolicies", "InlinePolicies"] := by
  have h := (collection_record_shapes demoClient ["users"] none dupDemo rfl).1
    [("u1", demoUserRec), ("u2", demoUserRec)] (List.mem_singleton.mpr rfl)
    ("u1", demoUserRec) (List.mem_cons_self _ _)
  exact ⟨h.1, h.2 ("devs", devsRec)
    (show ("devs", devsRec) ∈ [("devs", devsRec)] from List.mem_singleton.mpr rfl)⟩

/-! ### Claims C1, C3, C10 (concrete parts) -/

/-- **C1 (counterexample).**  `dupDemo` is the very collection the
collector builds from `demoClient`; the group `devs` is reachable from the
two users, its policy edge to `Pol` appears twice (not once) in the DOT
output, and `devs` receives no node declaration of any kind. -/
theorem write_dot_group_edges_duplicated :
    get_iam_data demoClient ["users"] none = Except.ok dupDemo
    ∧ (dotLines dupDemo).count (DotLine.edge "devs" "Pol" "has policy") = 2
    ∧ ¬((dotLines dupDemo).count (DotLine.edge "devs" "Pol" "has policy") = 1)
    ∧ (write_dot dupDemo).count "  \"devs\" -> \"Pol\" [label=\"has policy\"];" = 2
    ∧ DotLine.userNode "devs" ∉ dotLines dupDemo
    ∧ DotLine.roleNode "devs" ∉ dotLines dupDemo
    ∧ DotLine.policyNode "devs" ∉ dotLines dupDemo :=
  ⟨rfl, rfl, by decide, by decide, by decide, by decide, by decide⟩

/-- Witness for the amended C1, at the shared-group collection: the
membership formula evaluates to two copies of the group policy edge. -/
theorem write_dot_multiplicities_witness :
    ((dotLines dupDemo).count (DotLine.edge "devs" "Pol" "has policy")
        = ((membershipRecords dupDemo "devs").flatMap attachedOf).count "Pol")
    ∧ ((membershipRecords dupDemo "devs").flatMap attachedOf).count "Pol" = 2 :=
  ⟨((write_dot_multiplicities dupDemo (by decide) (by decide) (by decide)).2.2.2.2.2.2
      "devs" "Pol" (by decide) (by decide)).1, by decide⟩

/-- **C3.**  On the spec's example collection the DOT output is exactly
the three skeleton header lines, the `alice` node line, the
`alice -> AdminPolicy` edge line (each carrying the uniform two-space
statement indentation), and the closing brace, with each of the two quoted
declarations occurring exactly once. -/
theorem write_dot_alice_example :
    write_dot aliceData
      = ["digraph IAM \x7b", "  rankdir=LR;",
         "  node [shape=rectangle, style=filled, fillcolor=white];",
         "  " ++ "\"alice\" [label=\"User: alice\"];",
         "  " ++ "\"alice\" -> \"AdminPolicy\" [label=\"has policy\"];",
         "\x7d"]
    ∧ (write_dot aliceData).count ("  " ++ "\"alice\" [label=\"User: alice\"];") = 1
    ∧ (write_dot aliceData).count
        ("  " ++ "\"alice\" -> \"AdminPolicy\" [label=\"has policy\"];") = 1 :=
  ⟨by decide, by decide, by decide⟩

/-- **C10 (amended).**  On the empty collection `write_dot` produces
exactly the fixed four-line skeleton: the opening `digraph` line, the
`rankdir` line, the default node-attribute line and the closing brace,
with no node and no edge lines. -/
theorem write_dot_empty_skeleton :
    write_dot ([] : Dict)
      = ["digraph IAM \x7b", "  rankdir=LR;",
         "  node [shape=rectangle, style=filled, fillcolor=white];", "\x7d"]
    ∧ (write_dot ([] : Dict)).length = 4 :=
  ⟨rfl, rfl⟩

/-- **C10 (counterexample).**  The skeleton has four lines, not five. -/
theorem write_dot_empty_not_five_lines :
    ¬((write_dot ([] : Dict)).length = 5) := by decide

end IamViz
